import Mathlib

/-!
Shallow embedding of the OSCP packet framing library (src/lib.rs and
src/packet.rs) and verification of its specification claims.

Modelling choices:
* `u8` and `u32` are modelled as `Nat`; where overflow or truncation matters
  the arithmetic carries explicit `% 256` / bounds.
* The non-blocking byte source (`embedded_hal::serial::Read<u8>`) is modelled
  as a `List Nat` of the bytes it will deliver; once the list is exhausted the
  device reports `nb::Error::WouldBlock`, and every `nb` error is converted by
  `to_io_error` exactly as in the source.
* The byte sink used by `write_raw` is modelled as a recording sink that
  always accepts a byte (the encoded byte sequence is the object of the
  claims); the minimal variant's `Packet::write` keeps a fully generic,
  fallible sink.
* The CRC-32 digest (`crc::crc32::Digest::new(crc32::IEEE)`) is the standard
  reflected CRC-32/IEEE: initial value `0xFFFFFFFF`, reflected polynomial
  `0xEDB88320`, final xor `0xFFFFFFFF`.
-/

deriving instance DecidableEq for Except

namespace OSCP

/-- Rust `enum Error { IoError, ParseError }` from src/lib.rs. -/
inductive Error where
  | IoError
  | ParseError
deriving DecidableEq, Repr

/-- Rust `enum PacketType { Command = 0x01, MidiEvent = 0x02, Raw = 0xFF }`. -/
inductive PacketType where
  | Command
  | MidiEvent
  | Raw
deriving DecidableEq, Repr

/-- The one-byte wire code of each packet type (`self.typ as u8`). -/
def PacketType.toCode : PacketType → Nat
  | .Command => 0x01
  | .MidiEvent => 0x02
  | .Raw => 0xFF

/-- Rust `impl TryFrom<u8> for PacketType` (src/lib.rs lines 50-61). -/
def PacketType.tryFrom (value : Nat) : Except Error PacketType :=
  if value = 0x01 then .ok .Command
  else if value = 0x02 then .ok .MidiEvent
  else if value = 0xFF then .ok .Raw
  else .error .ParseError

/-- Rust `Flags::IGNORE = 0b00000001`; the only defined flag bit. -/
def Flags.IGNORE : Nat := 0b00000001

/-- Rust `Flags::from_bits` from the `bitflags!` expansion: succeeds iff no bit
outside the defined set (`IGNORE`, i.e. bit 0) is set. The complement of the
defined bits within a `u8` is `0b11111110`. -/
def Flags.from_bits (bits : Nat) : Option Nat :=
  if bits &&& 0b11111110 = 0 then some bits else none

/-- Rust `const PACKET_LEN: usize = 32` — each packet carries 32 data bytes. -/
def PACKET_LEN : Nat := 32

/-- Rust `type Raw = heapless::Vec<u8, PACKET_LEN>` — a byte vector of capacity 32. -/
def Raw : Type := { l : List Nat // l.length ≤ PACKET_LEN }

instance : DecidableEq Raw := fun a b =>
  match a, b with
  | ⟨la, _⟩, ⟨lb, _⟩ =>
    if h : la = lb then isTrue (Subtype.ext h)
    else isFalse (fun hc => h (congrArg Subtype.val hc))

/-- Rust `Packet<Raw>`: type, flags bits, target address byte, raw data. -/
structure RawPacket where
  typ : PacketType
  flags : Nat
  target : Nat
  data : Raw
deriving DecidableEq

/-! ### CRC-32 (crc crate, `crc32::Digest::new(crc32::IEEE)`) -/

/-- The reflected CRC-32/IEEE polynomial. -/
def CRC32_POLY : Nat := 0xEDB88320

/-- One shift-and-conditionally-xor round of the reflected CRC-32 algorithm. -/
def crcStep (crc : Nat) : Nat :=
  if crc % 2 = 1 then (crc / 2) ^^^ CRC32_POLY else crc / 2

/-- Iterates `crcStep` a given number of rounds. -/
def crcRounds : Nat → Nat → Nat
  | 0, crc => crc
  | n + 1, crc => crcRounds n (crcStep crc)

/-- Fold one byte into the running CRC-32 state (`digest.write_u8(d)`). -/
def crcByte (crc b : Nat) : Nat := crcRounds 8 (crc ^^^ b % 256)

/-- The CRC-32 initial accumulator value. -/
def CRC_INIT : Nat := 0xFFFFFFFF

/-- Final xor applied by `digest.finish()`. -/
def crcFinish (crc : Nat) : Nat := crc ^^^ 0xFFFFFFFF

/-- CRC-32/IEEE of a byte sequence. -/
def crc32 (bytes : List Nat) : Nat := crcFinish (bytes.foldl crcByte CRC_INIT)

/-- Rust `u32::to_le_bytes`: the four bytes of `n`, least-significant first. -/
def toLeBytes (n : Nat) : List Nat :=
  [n % 256, n / 256 % 256, n / 256 ^ 2 % 256, n / 256 ^ 3 % 256]

/-- Rust `u32::from_le_bytes`: reassemble a `u32` from four little-endian bytes. -/
def fromLeBytes (b0 b1 b2 b3 : Nat) : Nat :=
  b0 + 256 * b1 + 256 ^ 2 * b2 + 256 ^ 3 * b3

/-! ### nb error model and `to_io_error` -/

/-- Rust `nb::Error<E>`: either "would block" or an underlying device error. -/
inductive NbError (E : Type) where
  | wouldBlock
  | other (e : E)
deriving DecidableEq

/-- Rust `fn to_io_error<E>(_err: nb::Error<E>) -> Error { Error::IoError }`
(src/lib.rs lines 227-229). -/
def to_io_error {E : Type} (_err : NbError E) : Error := Error.IoError

/-- The non-blocking serial source: delivers its buffered bytes in order and
reports `WouldBlock` once exhausted. -/
def serialRead (input : List Nat) : Except (NbError Unit) (Nat × List Nat) :=
  match input with
  | [] => .error .wouldBlock
  | b :: rest => .ok (b, rest)

/-- Rust `self.input.read().map_err(to_io_error)?` — a raw single-byte read. -/
def rawRead (input : List Nat) : Except Error (Nat × List Nat) :=
  match serialRead input with
  | .error e => .error (to_io_error e)
  | .ok r => .ok r

/-! ### DigesterOutput (src/lib.rs lines 146-181) -/

/-- Write-side digesting transform state: bytes written so far to the sink,
and the running CRC-32 accumulator. -/
structure DigesterOutput where
  output : List Nat
  digest : Nat

namespace DigesterOutput

/-- Rust `DigesterOutput::new`: empty sink, fresh digest. -/
def new : DigesterOutput := ⟨[], CRC_INIT⟩

/-- Rust `fn write(&mut self, d: u8)`: forward the byte to the sink and fold it
into the digest. -/
def write (s : DigesterOutput) (d : Nat) : DigesterOutput :=
  ⟨s.output ++ [d], crcByte s.digest d⟩

/-- Rust `fn write_data(&mut self, d: &[u8])`: write each byte in order. -/
def write_data (s : DigesterOutput) (d : List Nat) : DigesterOutput :=
  d.foldl write s

/-- Rust `fn write_checksum(&mut self)`: emit the 4 finished-checksum bytes
little-endian, directly to the sink (not digested), returning the value. -/
def write_checksum (s : DigesterOutput) : DigesterOutput × Nat :=
  let digest := crcFinish s.digest
  (⟨s.output ++ toLeBytes digest, s.digest⟩, digest)

end DigesterOutput

/-- Rust `Packet::<Raw>::write_raw` (src/lib.rs lines 115-124), observed as the
byte sequence delivered to the sink. -/
def write_raw (p : RawPacket) : List Nat :=
  let out := DigesterOutput.new
  let out := out.write p.typ.toCode
  let out := out.write p.flags
  let out := out.write p.target
  let out := out.write_data p.data.val
  (out.write_checksum).1.output

/-! ### DigesterInput (src/lib.rs lines 183-225) -/

/-- Read-side digesting transform state: bytes the device will still deliver,
and the running CRC-32 accumulator. -/
structure DigesterInput where
  input : List Nat
  digest : Nat

namespace DigesterInput

/-- Rust `DigesterInput::new`. -/
def new (input : List Nat) : DigesterInput := ⟨input, CRC_INIT⟩

/-- Rust `fn read(&mut self)`: pull one byte (nb errors become `IoError`) and fold
it into the digest. -/
def read (s : DigesterInput) : Except Error (Nat × DigesterInput) :=
  match rawRead s.input with
  | .error e => .error e
  | .ok (d, rest) => .ok (d, ⟨rest, crcByte s.digest d⟩)

/-- Rust `fn read_data<const LEN>(&mut self, buf: &mut [u8; LEN])`: read `LEN`
bytes through the digesting read, in order. -/
def read_data : Nat → DigesterInput → Except Error (List Nat × DigesterInput)
  | 0, s => .ok ([], s)
  | n + 1, s =>
    match s.read with
    | .error e => .error e
    | .ok (b, s') =>
      match read_data n s' with
      | .error e => .error e
      | .ok (bs, s'') => .ok (b :: bs, s'')

/-- Rust `fn read_checksum(&mut self)`: read 4 trailer bytes directly from the
device (not digested), reassemble them little-endian, and compare with the
finished accumulated checksum. NOTE: the source returns `Error::IoError` on a
mismatch. -/
def read_checksum (s : DigesterInput) : Except Error DigesterInput :=
  match rawRead s.input with
  | .error e => .error e
  | .ok (b0, i0) =>
    match rawRead i0 with
    | .error e => .error e
    | .ok (b1, i1) =>
      match rawRead i1 with
      | .error e => .error e
      | .ok (b2, i2) =>
        match rawRead i2 with
        | .error e => .error e
        | .ok (b3, i3) =>
          let packet_checksum := fromLeBytes b0 b1 b2 b3
          let calc_checksum := crcFinish s.digest
          if packet_checksum = calc_checksum then .ok ⟨i3, s.digest⟩
          else .error .IoError

end DigesterInput

/-- Rust `heapless::Vec::from_slice(&data).map_err(|_| Error::ParseError)`:
conversion of the 32-byte array into the capacity-32 vector. -/
def vecFromSlice (data : List Nat) : Except Error Raw :=
  if h : data.length ≤ PACKET_LEN then .ok ⟨data, h⟩ else .error .ParseError

/-- Rust `Packet::<Raw>::read_raw` (src/lib.rs lines 127-143). -/
def read_raw (stream : List Nat) : Except Error RawPacket :=
  let input := DigesterInput.new stream
  match input.read with
  | .error e => .error e
  | .ok (tb, input) =>
    match PacketType.tryFrom tb with
    | .error e => .error e
    | .ok packet_type =>
      match input.read with
      | .error e => .error e
      | .ok (fb, input) =>
        match Flags.from_bits fb with
        | none => .error .ParseError
        | some flags =>
          match input.read with
          | .error e => .error e
          | .ok (target, input) =>
            match DigesterInput.read_data PACKET_LEN input with
            | .error e => .error e
            | .ok (dataArr, input) =>
              match input.read_checksum with
              | .error e => .error e
              | .ok _ =>
                match vecFromSlice dataArr with
                | .error e => .error e
                | .ok data => .ok ⟨packet_type, flags, target, data⟩

/-! ### Raw's Encode/Decode impls (src/lib.rs lines 77-88) -/

/-- Rust `impl Encode for Raw { fn data(&self) -> Raw { self.clone() } }`. -/
def Raw.data (v : Raw) : Raw := v

/-- Rust `Decode::Error = Infallible` for `Raw`. -/
def Raw.DecodeError : Type := Empty

/-- Rust `impl Decode for Raw { fn decode(raw: Raw) -> Result<Self, Infallible> { Ok(raw) } }`. -/
def Raw.decode (raw : Raw) : Except Raw.DecodeError Raw := .ok raw

/-! ### The minimal variant (src/packet.rs) -/

namespace packet

/-- Rust `enum Type { MidiEvent, Command }` from src/packet.rs (named `Ty` here
because `Type` is reserved in Lean). -/
inductive Ty where
  | MidiEvent
  | Command
deriving DecidableEq, Repr

/-- Rust `impl Into<u8> for Type` (src/packet.rs lines 51-58). -/
def Ty.into : Ty → Nat
  | .MidiEvent => 0x01
  | .Command => 0x10

/-- Rust `impl TryFrom<u8> for Type` (src/packet.rs lines 39-49). -/
def Ty.try_from (value : Nat) : Except Error Ty :=
  if value = 0x01 then .ok .MidiEvent
  else if value = 0x10 then .ok .Command
  else .error .ParseError

/-- Rust `struct Packet { dest: Addr, packet_type: Type }`. -/
structure Packet where
  dest : Nat
  packet_type : Ty

/-- Rust `impl<X> From<nb::Error<X>> for Error` (src/packet.rs lines 15-19):
every nb error becomes `IoError`. -/
def error_from_nb {X : Type} (_e : NbError X) : Error := Error.IoError

/-- Rust `fn write_addr<W: Write<u8>>(&self, out: &mut W)`: single-byte write of
the destination address; the `?` operator converts any nb error through the
`From` impl. The sink is a state-passing function `w` that may report an nb
error. -/
def Packet.write_addr {σ ε : Type} (w : σ → Nat → Except (NbError ε) σ)
    (p : Packet) (out : σ) : Except Error σ :=
  match w out p.dest with
  | .error e => .error (error_from_nb e)
  | .ok s => .ok s

/-- Rust `fn write_packet_type<W: Write<u8>>(&self, out: &mut W)`. -/
def Packet.write_packet_type {σ ε : Type} (w : σ → Nat → Except (NbError ε) σ)
    (p : Packet) (out : σ) : Except Error σ :=
  match w out p.packet_type.into with
  | .error e => .error (error_from_nb e)
  | .ok s => .ok s

/-- Rust `pub fn write<W: Write<u8>>(&self, out: &mut W)` (src/packet.rs lines
21-27): address byte then packet-type byte. -/
def Packet.write {σ ε : Type} (w : σ → Nat → Except (NbError ε) σ)
    (p : Packet) (out : σ) : Except Error σ :=
  match p.write_addr w out with
  | .error e => .error e
  | .ok s => p.write_packet_type w s

/-- The recording sink: always accepts the byte and appends it. -/
def recordingSink (l : List Nat) (b : Nat) : Except (NbError Unit) (List Nat) :=
  .ok (l ++ [b])

end packet

/-! ### Session/role state (spec §4.5, §7; not present under src/) -/

/-- Modelled from the spec: the error taxonomy of §7 (the `NotReady` and
`General` variants have no counterpart in src/). -/
inductive SpecError where
  | IoError
  | ParseError
  | NotReady
  | General
deriving DecidableEq, Repr

/-- Modelled from the spec: the role state of §4.5 — `Ready` (may transmit)
or `Waiting` (must not transmit). -/
inductive Role where
  | Ready
  | Waiting
deriving DecidableEq, Repr

/-- Modelled from the spec: the send operation of §4.5, absent from src/.
"Any attempt to send while not `Ready` fails immediately with a 'not ready'
error and performs no I/O"; when `Ready`, the packet's encoded bytes flow to
the sink. The result pairs the operation's outcome with the sink's contents
after the call. -/
def session_send (r : Role) (p : RawPacket) (sink : List Nat) :
    Except SpecError Unit × List Nat :=
  match r with
  | .Waiting => (.error .NotReady, sink)
  | .Ready => (.ok (), sink ++ write_raw p)

/-! ## Helper lemmas -/

theorem crcStep_lt (crc : Nat) (h : crc < 2 ^ 32) : crcStep crc < 2 ^ 32 := by
  unfold crcStep
  split
  · exact Nat.xor_lt_two_pow (by omega) (by norm_num [CRC32_POLY])
  · omega

theorem crcRounds_lt (n : Nat) : ∀ crc, crc < 2 ^ 32 → crcRounds n crc < 2 ^ 32 := by
  induction n with
  | zero => intro crc h; exact h
  | succ m ih => intro crc h; exact ih _ (crcStep_lt crc h)

theorem crcByte_lt (crc b : Nat) (h : crc < 2 ^ 32) : crcByte crc b < 2 ^ 32 := by
  unfold crcByte
  exact crcRounds_lt 8 _ (Nat.xor_lt_two_pow h (by have := Nat.mod_lt b (y := 256) (by omega); omega))

theorem foldl_crcByte_lt (bytes : List Nat) : ∀ crc, crc < 2 ^ 32 →
    bytes.foldl crcByte crc < 2 ^ 32 := by
  induction bytes with
  | nil => intro crc h; exact h
  | cons b bs ih => intro crc h; exact ih _ (crcByte_lt crc b h)

theorem crcFinish_lt (crc : Nat) (h : crc < 2 ^ 32) : crcFinish crc < 2 ^ 32 :=
  Nat.xor_lt_two_pow h (by norm_num)

theorem crc32_lt (bytes : List Nat) : crc32 bytes < 2 ^ 32 :=
  crcFinish_lt _ (foldl_crcByte_lt bytes CRC_INIT (by norm_num [CRC_INIT]))

theorem fromLe_toLe (n : Nat) (h : n < 2 ^ 32) :
    fromLeBytes (n % 256) (n / 256 % 256) (n / 256 ^ 2 % 256) (n / 256 ^ 3 % 256) = n := by
  unfold fromLeBytes
  have h2 : (256 : Nat) ^ 2 = 65536 := by norm_num
  have h3 : (256 : Nat) ^ 3 = 16777216 := by norm_num
  rw [h2, h3]
  have h32 : (2 : Nat) ^ 32 = 4294967296 := by norm_num
  rw [h32] at h
  omega

theorem write_data_spec (d : List Nat) : ∀ s : DigesterOutput,
    DigesterOutput.write_data s d =
      ⟨s.output ++ d, d.foldl crcByte s.digest⟩ := by
  induction d with
  | nil => intro s; simp [DigesterOutput.write_data]
  | cons b bs ih =>
    intro s
    have h1 : DigesterOutput.write_data s (b :: bs) =
        DigesterOutput.write_data (s.write b) bs := rfl
    rw [h1, ih]
    simp [DigesterOutput.write]

/-- The byte sequence produced by `write_raw`: the three header bytes, the
payload bytes, then the little-endian CRC-32 of header plus payload. -/
theorem write_raw_eq (p : RawPacket) :
    write_raw p = p.typ.toCode :: p.flags :: p.target ::
      (p.data.val ++ toLeBytes (crc32 (p.typ.toCode :: p.flags :: p.target :: p.data.val))) := by
  unfold write_raw
  simp only []
  rw [write_data_spec]
  simp [DigesterOutput.new, DigesterOutput.write, DigesterOutput.write_checksum, crc32]

theorem read_cons (b : Nat) (rest : List Nat) (dg : Nat) :
    DigesterInput.read ⟨b :: rest, dg⟩ = .ok (b, ⟨rest, crcByte dg b⟩) := rfl

theorem read_nil (dg : Nat) :
    DigesterInput.read ⟨[], dg⟩ = .error .IoError := rfl

theorem read_error (s : DigesterInput) (e : Error) (h : s.read = .error e) :
    e = .IoError := by
  obtain ⟨input, dg⟩ := s
  cases input with
  | nil => cases h; rfl
  | cons b rest => simp [read_cons] at h

theorem read_data_error (n : Nat) : ∀ (s : DigesterInput) (e : Error),
    DigesterInput.read_data n s = .error e → e = .IoError := by
  induction n with
  | zero => intro s e h; simp [DigesterInput.read_data] at h
  | succ m ih =>
    intro s e h
    rw [DigesterInput.read_data] at h
    cases hr : s.read with
    | error e' =>
      rw [hr] at h
      cases h
      exact read_error s e hr
    | ok r =>
      obtain ⟨b, s1⟩ := r
      rw [hr] at h
      dsimp only at h
      cases hd : DigesterInput.read_data m s1 with
      | error e' =>
        rw [hd] at h
        cases h
        exact ih s1 e hd
      | ok r' =>
        obtain ⟨bs2, s2⟩ := r'
        rw [hd] at h
        cases h

theorem read_data_ok_length (n : Nat) : ∀ (s : DigesterInput) (bs : List Nat)
    (s' : DigesterInput), DigesterInput.read_data n s = .ok (bs, s') →
    bs.length = n := by
  induction n with
  | zero =>
    intro s bs s' h
    rw [DigesterInput.read_data] at h
    cases h
    rfl
  | succ m ih =>
    intro s bs s' h
    rw [DigesterInput.read_data] at h
    cases hr : s.read with
    | error e' => rw [hr] at h; cases h
    | ok r =>
      obtain ⟨b, s1⟩ := r
      rw [hr] at h
      dsimp only at h
      cases hd : DigesterInput.read_data m s1 with
      | error e' => rw [hd] at h; cases h
      | ok r' =>
        obtain ⟨bs2, s2⟩ := r'
        rw [hd] at h
        cases h
        rw [List.length_cons, ih s1 bs2 _ hd]

theorem read_data_exact (d : List Nat) : ∀ (rest : List Nat) (dg : Nat),
    DigesterInput.read_data d.length ⟨d ++ rest, dg⟩ =
      .ok (d, ⟨rest, d.foldl crcByte dg⟩) := by
  induction d with
  | nil => intro rest dg; simp [DigesterInput.read_data]
  | cons b bs ih =>
    intro rest dg
    rw [List.length_cons, DigesterInput.read_data]
    simp only [List.cons_append, read_cons]
    rw [ih rest (crcByte dg b)]
    simp

theorem read_checksum_error (s : DigesterInput) (e : Error)
    (h : s.read_checksum = .error e) : e = .IoError := by
  obtain ⟨input, dg⟩ := s
  match input with
  | [] => cases h; rfl
  | [b0] => cases h; rfl
  | [b0, b1] => cases h; rfl
  | [b0, b1, b2] => cases h; rfl
  | b0 :: b1 :: b2 :: b3 :: rest =>
    rw [DigesterInput.read_checksum] at h
    simp only [rawRead, serialRead] at h
    split at h
    · cases h
    · cases h; rfl

theorem read_checksum_match (dg : Nat) (rest : List Nat)
    (h : crcFinish dg < 2 ^ 32) :
    DigesterInput.read_checksum ⟨toLeBytes (crcFinish dg) ++ rest, dg⟩ =
      .ok ⟨rest, dg⟩ := by
  rw [DigesterInput.read_checksum]
  simp only [toLeBytes, List.cons_append, List.nil_append, rawRead, serialRead]
  rw [fromLe_toLe (crcFinish dg) h]
  simp

theorem tryFrom_toCode (t : PacketType) :
    PacketType.tryFrom t.toCode = .ok t := by
  cases t <;> rfl

theorem tryFrom_cases (b : Nat) :
    (∃ t, PacketType.tryFrom b = .ok t) ∨
      PacketType.tryFrom b = .error .ParseError := by
  unfold PacketType.tryFrom
  split
  · exact .inl ⟨_, rfl⟩
  · split
    · exact .inl ⟨_, rfl⟩
    · split
      · exact .inl ⟨_, rfl⟩
      · exact .inr rfl

theorem tryFrom_invalid (b : Nat) (h1 : b ≠ 0x01) (h2 : b ≠ 0x02)
    (h3 : b ≠ 0xFF) : PacketType.tryFrom b = .error .ParseError := by
  unfold PacketType.tryFrom
  rw [if_neg h1, if_neg h2, if_neg h3]

/-- Decoding an exactly encoded frame (header, full 32-byte payload, matching
little-endian CRC-32 trailer) recovers the packet. -/
theorem read_raw_frame (p : RawPacket) (hf : p.flags &&& 0b11111110 = 0)
    (hd : p.data.val.length = PACKET_LEN) :
    read_raw (p.typ.toCode :: p.flags :: p.target ::
      (p.data.val ++
        toLeBytes (crc32 (p.typ.toCode :: p.flags :: p.target :: p.data.val)))) =
      .ok p := by
  obtain ⟨t, f, a, d⟩ := p
  obtain ⟨dv, dp⟩ := d
  simp only at hf hd ⊢
  rw [read_raw]
  simp only [DigesterInput.new, read_cons, tryFrom_toCode]
  rw [Flags.from_bits, if_pos hf]
  simp only [read_cons]
  have hrd := read_data_exact dv
    (toLeBytes (crc32 (t.toCode :: f :: a :: dv)))
    (crcByte (crcByte (crcByte CRC_INIT t.toCode) f) a)
  rw [hd] at hrd
  rw [hrd]
  have hlt : crcFinish (dv.foldl crcByte
      (crcByte (crcByte (crcByte CRC_INIT t.toCode) f) a)) < 2 ^ 32 := by
    refine crcFinish_lt _ (foldl_crcByte_lt dv _ ?_)
    refine crcByte_lt _ _ (crcByte_lt _ _ (crcByte_lt _ _ ?_))
    norm_num [CRC_INIT]
  have hc : crc32 (t.toCode :: f :: a :: dv) =
      crcFinish (dv.foldl crcByte
        (crcByte (crcByte (crcByte CRC_INIT t.toCode) f) a)) := by
    simp [crc32, List.foldl]
  rw [hc]
  have hm := read_checksum_match
    (dv.foldl crcByte (crcByte (crcByte (crcByte CRC_INIT t.toCode) f) a)) [] hlt
  rw [List.append_nil] at hm
  dsimp only
  rw [hm]
  dsimp only
  rw [vecFromSlice, dif_pos dp]

theorem tryFrom_error (b : Nat) (e : Error)
    (h : PacketType.tryFrom b = .error e) : e = .ParseError := by
  unfold PacketType.tryFrom at h
  split at h
  · cases h
  · split at h
    · cases h
    · split at h
      · cases h
      · cases h; rfl

/-- Claim C5 groundwork: an unknown type code, or an unknown flag bit, makes
`read_raw` fail with `ParseError`. -/
theorem read_raw_reject (b0 b1 : Nat) (rest : List Nat)
    (h : (b0 ≠ 0x01 ∧ b0 ≠ 0x02 ∧ b0 ≠ 0xFF) ∨ b1 &&& 0b11111110 ≠ 0) :
    read_raw (b0 :: b1 :: rest) = .error .ParseError := by
  rw [read_raw]
  simp only [DigesterInput.new, read_cons]
  rcases h with ⟨h1, h2, h3⟩ | hflag
  · rw [tryFrom_invalid b0 h1 h2 h3]
  · rcases tryFrom_cases b0 with ⟨t, ht⟩ | ht
    · rw [ht]
      dsimp only
      rw [Flags.from_bits, if_neg hflag]
    · rw [ht]

/-- Claim C8 groundwork: once the type byte and the flags byte have been
validated, `read_raw` can no longer fail with `ParseError`. -/
theorem read_raw_no_parse_after_header (b0 b1 : Nat) (rest : List Nat)
    (t : PacketType) (ht : PacketType.tryFrom b0 = .ok t)
    (hf : b1 &&& 0b11111110 = 0) :
    read_raw (b0 :: b1 :: rest) ≠ .error .ParseError := by
  intro hcontra
  rw [read_raw] at hcontra
  simp only [DigesterInput.new, read_cons] at hcontra
  rw [ht] at hcontra
  dsimp only at hcontra
  rw [Flags.from_bits, if_pos hf] at hcontra
  dsimp only at hcontra
  split at hcontra
  · next e heq =>
    cases read_error _ _ heq
    simp at hcontra
  · next target input heq =>
    split at hcontra
    · next e heq2 =>
      cases read_data_error _ _ _ heq2
      simp at hcontra
    · next dataArr input2 heq2 =>
      split at hcontra
      · next e heq3 =>
        cases read_checksum_error _ _ heq3
        simp at hcontra
      · next heq3 =>
        split at hcontra
        · next e heq4 =>
          have hlen := read_data_ok_length _ _ _ _ heq2
          rw [vecFromSlice, dif_pos (le_of_eq hlen)] at heq4
          cases heq4
        · next data heq4 =>
          simp at hcontra

/-! ## Claim theorems -/

set_option maxRecDepth 100000 in
/-- Claim C1, counterexample: the round trip `read_raw ∘ write_raw` fails for
a perfectly valid packet whose payload is shorter than the full 32 bytes
(here: type `Command`, no flags, target 0, empty payload). `write_raw` emits
only the payload bytes actually present, while `read_raw` always consumes
exactly `PACKET_LEN` data bytes, so the stream is too short and decoding
fails — the claim's "any payload length within bounds" is false. -/
theorem c1_roundtrip_counterexample :
    read_raw (write_raw ⟨.Command, 0, 0, ⟨[], by simp [PACKET_LEN]⟩⟩) ≠
      .ok ⟨.Command, 0, 0, ⟨[], by simp [PACKET_LEN]⟩⟩ := by decide

/-- Claim C1, amended: for every packet whose type is in the closed
enumeration, whose flags byte uses only defined bits, with any target address
and a payload of length exactly `PACKET_LEN` (32), decoding the byte stream
produced by encoding the packet yields the original packet. -/
theorem c1_roundtrip (p : RawPacket) (hf : p.flags &&& 0b11111110 = 0)
    (hd : p.data.val.length = PACKET_LEN) :
    read_raw (write_raw p) = .ok p := by
  rw [write_raw_eq]
  exact read_raw_frame p hf hd

set_option maxRecDepth 1000000 in
/-- Witness for the amended claim C1 at a concrete packet. -/
theorem c1_roundtrip_witness :
    ((⟨.MidiEvent, 1, 5, ⟨List.replicate 32 7, by simp [PACKET_LEN]⟩⟩ :
        RawPacket).flags &&& 0b11111110 = 0) ∧
    ((⟨.MidiEvent, 1, 5, ⟨List.replicate 32 7, by simp [PACKET_LEN]⟩⟩ :
        RawPacket).data.val.length = PACKET_LEN) ∧
    read_raw (write_raw ⟨.MidiEvent, 1, 5, ⟨List.replicate 32 7, by simp [PACKET_LEN]⟩⟩) =
      .ok ⟨.MidiEvent, 1, 5, ⟨List.replicate 32 7, by simp [PACKET_LEN]⟩⟩ :=
  ⟨by decide, by decide,
    c1_roundtrip ⟨.MidiEvent, 1, 5, ⟨List.replicate 32 7, by simp [PACKET_LEN]⟩⟩
      (by decide) (by decide)⟩

set_option maxRecDepth 1000000 in
/-- Claim C2, code bug: on a frame with a valid header and 32 payload bytes
whose 4-byte trailer does not match the accumulated CRC-32 (the real checksum
of this frame is nonzero, the trailer is zero), `read_raw` fails with
`Error.IoError` — the same variant used for underlying I/O failures — and not
with `Error.ParseError` as the specification requires (`read_checksum`,
src/lib.rs line 222, returns `Err(Error::IoError)` on mismatch). -/
theorem c2_checksum_mismatch_is_io_error :
    crc32 ([0x01, 0x00, 0x00] ++ List.replicate PACKET_LEN 0) ≠ 0 ∧
    read_raw ([0x01, 0x00, 0x00] ++ List.replicate PACKET_LEN 0 ++ [0, 0, 0, 0]) =
      .error .IoError := by
  constructor
  · decide
  · decide

/-- Claim C3, counterexample: a byte source that reports "would block" on the
very first pull makes `read_raw` fail with `Error.IoError`; would-block is
not surfaced as a retry-later outcome. -/
theorem c3_would_block_counterexample :
    serialRead [] = .error .wouldBlock ∧
    to_io_error (NbError.wouldBlock : NbError Unit) = Error.IoError ∧
    read_raw [] = .error .IoError :=
  ⟨rfl, rfl, rfl⟩

/-- Claim C3, amended: would-block receives no special treatment — both error
conversions (`to_io_error` in src/lib.rs and the `From<nb::Error<X>>` impl in
src/packet.rs) map every nb error, would-block included, to `IoError`, so a
would-block report is surfaced as an I/O error. -/
theorem c3_would_block_is_io_error (E : Type) (e : NbError E) :
    to_io_error e = Error.IoError ∧ packet.error_from_nb e = Error.IoError :=
  ⟨rfl, rfl⟩

/-- Claim C4: encoding a `Packet<Raw>` writes, in order, the type code byte,
the flags byte, the target address byte, the payload bytes, and finally the
4 checksum bytes little-endian, where the checksum is the CRC-32/IEEE of
exactly the preceding header and payload bytes (the trailer itself is not
digested). -/
theorem c4_wire_layout (p : RawPacket) :
    write_raw p = [p.typ.toCode, p.flags, p.target] ++ p.data.val ++
      toLeBytes (crc32 ([p.typ.toCode, p.flags, p.target] ++ p.data.val)) := by
  rw [write_raw_eq]
  simp

/-- Claim C5: a stream whose first (type) byte is not one of the defined
codes 0x01/0x02/0xFF, or whose second (flags) byte sets any bit other than
bit 0, is rejected by `read_raw` with `ParseError`. -/
theorem c5_unknown_type_or_flag_rejected (b0 b1 : Nat) (rest : List Nat)
    (h : (b0 ≠ 0x01 ∧ b0 ≠ 0x02 ∧ b0 ≠ 0xFF) ∨ b1 &&& 0b11111110 ≠ 0) :
    read_raw (b0 :: b1 :: rest) = .error .ParseError :=
  read_raw_reject b0 b1 rest h

/-- Witness for claim C5 at the unknown type code 0x03. -/
theorem c5_witness :
    ((3 ≠ 0x01 ∧ 3 ≠ 0x02 ∧ 3 ≠ 0xFF) ∨ (0 : Nat) &&& 0b11111110 ≠ 0) ∧
    read_raw [3, 0] = .error .ParseError :=
  ⟨by decide, c5_unknown_type_or_flag_rejected 3 0 [] (by decide)⟩

/-- Claim C6 (spec-modelled; the session/role component is absent from src/):
any attempt to send while the role state is `Waiting` fails immediately with
`NotReady` and performs zero writes to the byte sink — the sink contents are
returned unchanged. -/
theorem c6_not_ready_gating (p : RawPacket) (sink : List Nat) :
    session_send .Waiting p sink = (.error .NotReady, sink) := rfl

/-- Claim C7: the payload-capability round-trip law for `Raw`:
`decode (data v) = ok v` for every raw value `v`, interpreting any raw buffer
as itself is total and always succeeds, and the decode error type
(`Infallible`) is uninhabited. -/
theorem c7_raw_roundtrip :
    (∀ v : Raw, Raw.decode (Raw.data v) = .ok v) ∧
    (∀ r : Raw, Raw.decode r = .ok r) ∧
    IsEmpty Raw.DecodeError :=
  ⟨fun _ => rfl, fun _ => rfl, ⟨fun e => nomatch e⟩⟩

/-- Claim C8: once the type byte and the flags byte have validated, `read_raw`
never returns `ParseError` — in particular the `ParseError` branch attached
to the `Vec::from_slice` conversion of the 32-byte data array is unreachable,
because `read_data` always returns exactly `PACKET_LEN` bytes. -/
theorem c8_parse_error_only_from_header (b0 b1 : Nat) (rest : List Nat)
    (t : PacketType) (ht : PacketType.tryFrom b0 = .ok t)
    (hf : b1 &&& 0b11111110 = 0) :
    read_raw (b0 :: b1 :: rest) ≠ .error .ParseError :=
  read_raw_no_parse_after_header b0 b1 rest t ht hf

/-- Witness for claim C8 at a concrete valid header prefix. -/
theorem c8_witness :
    PacketType.tryFrom 1 = .ok .Command ∧ (0 : Nat) &&& 0b11111110 = 0 ∧
    read_raw [1, 0] ≠ .error .ParseError :=
  ⟨rfl, by decide,
    c8_parse_error_only_from_header 1 0 [] .Command rfl (by decide)⟩

/-- Claim C9: in the minimal variant, `Packet::write` emits exactly two bytes
— destination address then packet-type code, in that order, with no length,
payload, or checksum bytes (shown on the recording sink) — and on any sink it
succeeds exactly when both underlying single-byte writes succeed. -/
theorem c9_minimal_write (p : packet.Packet) :
    packet.Packet.write packet.recordingSink p [] =
      .ok [p.dest, p.packet_type.into] ∧
    (∀ (σ ε : Type) (w : σ → Nat → Except (NbError ε) σ) (s : σ),
      (∃ s2, packet.Packet.write w p s = .ok s2) ↔
        ∃ s1, w s p.dest = .ok s1 ∧ ∃ s2, w s1 p.packet_type.into = .ok s2) := by
  constructor
  · rfl
  · intro σ ε w s
    cases h1 : w s p.dest with
    | error e =>
      simp [packet.Packet.write, packet.Packet.write_addr,
        packet.Packet.write_packet_type, h1]
    | ok s1 =>
      cases h2 : w s1 p.packet_type.into with
      | error e =>
        simp [packet.Packet.write, packet.Packet.write_addr,
          packet.Packet.write_packet_type, h1, h2]
      | ok s2 =>
        simp [packet.Packet.write, packet.Packet.write_addr,
          packet.Packet.write_packet_type, h1, h2]

/-- Claim C10: decoding imposes no constraint on the address byte — for every
value `a` (including 0, the controller sentinel, and 255, the broadcast
sentinel), a well-formed frame carrying `a` in the address position decodes
successfully and returns `a` unchanged as the packet's target; no decode
failure originates from the address field. -/
theorem c10_address_transparent (a : Nat) (t : PacketType) (f : Nat)
    (d : List Nat) (hf : f &&& 0b11111110 = 0) (hd : d.length = PACKET_LEN) :
    ∃ p : RawPacket,
      read_raw (t.toCode :: f :: a ::
        (d ++ toLeBytes (crc32 (t.toCode :: f :: a :: d)))) = .ok p ∧
      p.target = a ∧ p.typ = t ∧ p.flags = f ∧ p.data.val = d := by
  refine ⟨⟨t, f, a, ⟨d, le_of_eq hd⟩⟩, ?_, rfl, rfl, rfl, rfl⟩
  exact read_raw_frame ⟨t, f, a, ⟨d, le_of_eq hd⟩⟩ hf hd

/-- Witness for claim C10 at the broadcast address 255. -/
theorem c10_witness :
    ((1 : Nat) &&& 0b11111110 = 0) ∧
    (List.replicate 32 0).length = PACKET_LEN ∧
    ∃ p : RawPacket,
      read_raw (PacketType.Raw.toCode :: 1 :: 255 ::
        (List.replicate 32 0 ++
          toLeBytes (crc32 (PacketType.Raw.toCode :: 1 :: 255 :: List.replicate 32 0)))) =
        .ok p ∧
      p.target = 255 ∧ p.typ = .Raw ∧ p.flags = 1 ∧ p.data.val = List.replicate 32 0 :=
  ⟨by decide, by decide,
    c10_address_transparent 255 .Raw 1 (List.replicate 32 0) (by decide) (by decide)⟩

end OSCP
